import Mathlib

/-!
Shallow embedding of the catalog/query core of the shopperstop repository:
`app/services/CombinedProductService.ts` and `app/services/ProductService.ts`.
Strings are modelled as lists of characters (`Str`), JSON numbers as
rationals, and `undefined`-able fields as `Option`.
-/

abbrev Str := List Char

/-- JS `String.prototype.toLowerCase`, modelled character-wise. -/
def lowerStr (s : Str) : Str := s.map Char.toLower

/-- Tests whether `hay` begins with `needle`. -/
def startsWithStr : Str → Str → Bool
  | [], _ => true
  | _ :: _, [] => false
  | a :: as, b :: bs => a = b && startsWithStr as bs

/-- JS `String.prototype.includes`: `needle` occurs contiguously in `hay`. -/
def containsStr : Str → Str → Bool
  | [], needle => needle.isEmpty
  | c :: rest, needle => startsWithStr needle (c :: rest) || containsStr rest needle

/-- JS whitespace characters relevant to `String.prototype.trim` (the model
covers space, tab, newline, carriage return, form feed, vertical tab). -/
def isJsWhitespace (c : Char) : Bool :=
  c = ' ' || c = '\t' || c = '\n' || c = '\r' || c = '\x0c' || c = '\x0b'

/-- Model of `!query.trim()`: the string is empty after trimming, i.e. every
character is whitespace. -/
def trimIsEmpty (s : Str) : Bool := s.all isJsWhitespace

/-- JS `a || b` on an optional string: `undefined` and `""` are falsy. -/
def jsOrStr (a : Option Str) (b : Str) : Str :=
  match a with
  | none => b
  | some s => if s.isEmpty then b else s

/-- Lookup in a JS object used as a string-keyed record (assoc list preserves
the object's key-insertion order, which is what `Object.values` iterates). -/
def assocLookup (k : Str) : List (Str × α) → Option α
  | [] => none
  | (k', v) :: rest => if k' = k then some v else assocLookup k rest

namespace Combined

/-- Model of `UnifiedProduct` from `CombinedProductService.ts`.  Fields that
raw JSON may omit (`title?`, `name?`, optional descriptive data, `thumbnail`
before normalization) are `Option`; numeric JSON values are rationals.
Fields of the TypeScript interface never read by the service operations
(specifications, dimensions, weight, colors, availability/warranty/shipping/
return strings, `arAssets`) are omitted: no modelled operation inspects
them. -/
structure UnifiedProduct where
  id : Str
  title : Option Str
  name : Option Str
  brand : Option Str
  category : Option Str
  price : Option ℚ
  rating : Option ℚ
  stock : Option ℚ
  description : Option Str
  tags : Option (List Str)
  images : Option (List Str)
  thumbnail : Option Str
  hasAR : Option Bool
  deriving DecidableEq, Repr

/-- Catalog metadata block (`catalog` field of the fetched JSON). -/
structure CatalogMeta where
  version : Str
  lastUpdated : Str
  totalProducts : ℚ
  categories : List Str
  arEnabledCategories : List Str
  deriving DecidableEq, Repr

/-- The raw parsed JSON document: every top-level field may be absent. -/
structure RawCatalog where
  catalogMeta : Option CatalogMeta
  arProducts : Option (List (Str × UnifiedProduct))
  products : Option (List UnifiedProduct)
  deriving DecidableEq, Repr

/-- Model of `const DEFAULT_IMAGE = '/assets/images/iphoneX.png'`. -/
def DEFAULT_IMAGE : Str := "/assets/images/iphoneX.png".data

/-- Model of `IMAGE_CATEGORY_FALLBACKS` record, in key-insertion order. -/
def IMAGE_CATEGORY_FALLBACKS : List (Str × Str) :=
  [("electronics".data, "/assets/images/iphoneX.png".data),
   ("furniture".data, "/assets/images/sofa_default.png".data),
   ("smartphones".data, "/assets/images/iphoneX.png".data),
   ("laptops".data, "/assets/images/generic_electronic_default.png".data),
   ("televisions".data, "/assets/images/mi_tv_default.png".data),
   ("default".data, "/assets/images/iphoneX.png".data)]

/-- The flagged external-host marker substring `'dummyjson.com'`. -/
def markerStr : Str := "dummyjson.com".data

/-- Model of `const category = product.category?.toLowerCase() || 'default'`
(an absent or empty category falls back to the string `'default'`). -/
def effectiveCategory (p : UnifiedProduct) : Str :=
  jsOrStr (p.category.map lowerStr) "default".data

/-- Model of `IMAGE_CATEGORY_FALLBACKS[category] || DEFAULT_IMAGE` as
computed inside `loadCombinedCatalog` for one product. -/
def fallbackFor (p : UnifiedProduct) : Str :=
  (assocLookup (effectiveCategory p) IMAGE_CATEGORY_FALLBACKS).getD DEFAULT_IMAGE

/-- Model of `img.includes('dummyjson.com') ? fallbackImage : img`. -/
def rewriteImage (fallbackImage img : Str) : Str :=
  if containsStr img markerStr then fallbackImage else img

/-- One product mapped by `loadCombinedCatalog`: the spread keeps all fields,
`images`/`thumbnail` are rewritten away from the flagged host, and `hasAR` is
forced to the branch's constant.  `product.thumbnail?.includes(...)` is
`undefined` (falsy) when the thumbnail is absent, in which case
`product.thumbnail || DEFAULT_IMAGE` applies. -/
def normalizeProduct (hasAR : Bool) (p : UnifiedProduct) : UnifiedProduct :=
  let fallbackImage := fallbackFor p
  { p with
    images := some ((p.images.getD []).map (rewriteImage fallbackImage)),
    thumbnail := some (match p.thumbnail with
      | none => DEFAULT_IMAGE
      | some t => if containsStr t markerStr then fallbackImage else jsOrStr (some t) DEFAULT_IMAGE),
    hasAR := some hasAR }

/-- Every fallback path the loader can pick: the default plus the values of
the category table. -/
def fallbackPool : List Str := DEFAULT_IMAGE :: IMAGE_CATEGORY_FALLBACKS.map Prod.snd

/-- Mutable fields of the `CombinedProductService` instance. -/
structure CState where
  catalog : Option RawCatalog
  products : List UnifiedProduct
  arProducts : List UnifiedProduct
  isLoaded : Bool
  deriving DecidableEq, Repr

/-- Field initializers of `CombinedProductService` before any load settles. -/
def initState : CState :=
  { catalog := none, products := [], arProducts := [], isLoaded := false }

/-- Outcome of `fetch('/combined-products.json')` followed by
`response.json()`: `netError` is a rejected fetch; `resp ok body` is a
resolved response with HTTP success flag `ok` (2xx or not — the code never
reads it) and `body = none` when the body fails to parse as JSON. -/
inductive FetchOutcome where
  | netError : FetchOutcome
  | resp (ok : Bool) (body : Option RawCatalog) : FetchOutcome
  deriving DecidableEq, Repr

/-- Model of `loadCombinedCatalog` of `CombinedProductService`: on a parsed
body it stores the raw document, normalizes both collections (AR first) and
marks the load complete; a rejected fetch or parse failure hits the `catch`
block, which resets the state and still marks the load complete.  The HTTP
status is never inspected. -/
def loadCombinedCatalog (r : FetchOutcome) (_s : CState) : CState :=
  match r with
  | .netError => { catalog := none, products := [], arProducts := [], isLoaded := true }
  | .resp _ none => { catalog := none, products := [], arProducts := [], isLoaded := true }
  | .resp _ (some data) =>
      let arP := (data.arProducts.getD []).map (fun kv => normalizeProduct true kv.2)
      let regular := (data.products.getD []).map (normalizeProduct false)
      { catalog := some data, products := arP ++ regular, arProducts := arP, isLoaded := true }

/-- Model of `getProductById` (body after `await this.waitForLoad()`):
`this.catalog?.arProducts?.[id.toString()]` is consulted first — note this
reads the RAW stored document, not the normalized `this.arProducts` — and
only on a miss is the normalized merged list scanned. -/
def getProductById (s : CState) (id : Str) : Option UnifiedProduct :=
  match s.catalog with
  | some c =>
      match assocLookup id (c.arProducts.getD []) with
      | some p => some p
      | none => s.products.find? (fun p => p.id = id)
  | none => s.products.find? (fun p => p.id = id)

/-- Model of `getAllProducts` (body after the await). -/
def getAllProducts (s : CState) : List UnifiedProduct := s.products

/-- Model of `getProductsByCategory` (body after the await):
`product.category.toLowerCase()` is unguarded, so the filter callback throws
a TypeError when some merged record lacks a category — modelled as `none`;
otherwise the case-folded filter result is returned. -/
def getProductsByCategory (s : CState) (category : Str) : Option (List UnifiedProduct) :=
  if s.products.all (fun p => p.category.isSome) then
    some (s.products.filter (fun p => lowerStr (p.category.getD []) = lowerStr category))
  else none

/-- The per-product match predicate inside `searchProducts`:
`(product.title || product.name || '')`, description, brand, or some tag
contains the lower-cased search term. -/
def searchMatches (searchTerm : Str) (p : UnifiedProduct) : Bool :=
  containsStr (lowerStr (jsOrStr p.title (jsOrStr p.name []))) searchTerm ||
  containsStr (lowerStr (p.description.getD [])) searchTerm ||
  containsStr (lowerStr (p.brand.getD [])) searchTerm ||
  (p.tags.getD []).any (fun tag => containsStr (lowerStr tag) searchTerm)

/-- Model of `searchProducts` (body after the await): `if (!query.trim())
return this.products;` then filter by `searchMatches` on the lower-cased
query. -/
def searchProducts (s : CState) (query : Str) : List UnifiedProduct :=
  if trimIsEmpty query then s.products
  else s.products.filter (searchMatches (lowerStr query))

/-- Model of `getCategories` (body after the await):
`this.catalog?.catalog.categories || []` — the optional chain guards only
`this.catalog`, so when the stored document lacks its `catalog` block the
read of `.categories` throws a TypeError (modelled as `none`); a null
catalog short-circuits the whole chain to `undefined || []`. -/
def getCategories (s : CState) : Option (List Str) :=
  match s.catalog with
  | some c =>
      match c.catalogMeta with
      | some m => some m.categories
      | none => none
  | none => some []

/-- Model of `waitForLoad`: polls until `isLoaded`; modelled as a partial
observation — `none` means the call is still suspended, `some ()` that it
has returned. -/
def waitForLoad (s : CState) : Option Unit :=
  if s.isLoaded then some () else none

/-- Model of `getAllProducts` including its `await this.waitForLoad()`: the
call only produces a value once the load has settled. -/
def getAllProductsAwait (s : CState) : Option (List UnifiedProduct) :=
  (waitForLoad s).map (fun _ => getAllProducts s)

/-- Model of `getProductById` including its `await this.waitForLoad()`. -/
def getProductByIdAwait (s : CState) (id : Str) : Option (Option UnifiedProduct) :=
  (waitForLoad s).map (fun _ => getProductById s id)

/-- Model of `getProductsByCategory` including its `await this.waitForLoad()`
(outer `none`: still waiting; inner `none`: the body threw a TypeError). -/
def getProductsByCategoryAwait (s : CState) (category : Str) :
    Option (Option (List UnifiedProduct)) :=
  (waitForLoad s).map (fun _ => getProductsByCategory s category)

/-- Model of `searchProducts` including its `await this.waitForLoad()`. -/
def searchProductsAwait (s : CState) (query : Str) : Option (List UnifiedProduct) :=
  (waitForLoad s).map (fun _ => searchProducts s query)

/-- Model of `getCategories` including its `await this.waitForLoad()`
(outer `none`: still waiting; inner `none`: the body threw a TypeError). -/
def getCategoriesAwait (s : CState) : Option (Option (List Str)) :=
  (waitForLoad s).map (fun _ => getCategories s)

end Combined

namespace PS

/-- Model of `ProductPrice` from `types/Product.ts`. -/
structure ProductPrice where
  current : ℚ
  original : ℚ
  currency : Str
  discount : ℚ
  deriving DecidableEq, Repr

/-- Model of `ProductAvailability` from `types/Product.ts`. -/
structure ProductAvailability where
  inStock : Bool
  quantity : ℚ
  warehouse : Str
  deriving DecidableEq, Repr

/-- Model of `ProductRating` from `types/Product.ts` (the per-star
distribution record is never read by the service and is omitted). -/
structure ProductRating where
  average : ℚ
  count : ℚ
  deriving DecidableEq, Repr

/-- Model of `ProductAssets` from `types/Product.ts`: the image and 3D-model
references a `ProductService` record carries. -/
structure ProductAssets where
  images : List Str
  primaryImage : Str
  model3D : Str
  modelColor : Str
  modelScale : ℚ
  deriving DecidableEq, Repr

/-- Model of `Product` from `types/Product.ts`.  All fields the service
operations read are present, plus the `assets` image references; purely
presentational fields (`sku`, `subcategory`, `specifications`, `dimensions`,
`weight`, `colors`, `sizes`, `seo`, `annotations`) are never inspected by
`ProductService` and are omitted. -/
structure Product where
  id : Str
  name : Str
  brand : Str
  category : Str
  price : ProductPrice
  description : Str
  features : List Str
  availability : ProductAvailability
  rating : ProductRating
  assets : ProductAssets
  deriving DecidableEq, Repr

/-- Model of `ProductFilters` from `types/Product.ts`: every field optional. -/
structure ProductFilters where
  category : Option Str
  priceRange : Option (ℚ × ℚ)
  inStock : Option Bool
  rating : Option ℚ
  brand : Option Str
  deriving DecidableEq, Repr

/-- Model of `SortOption` from `types/Product.ts`. -/
inductive SortOption where
  | priceLow | priceHigh | rating | newest | popular
  deriving DecidableEq, Repr

/-- Model of `SearchOptions` from `types/Product.ts`.  `limit`/`offset` are
modelled as naturals (the catalog positions they index). -/
structure SearchOptions where
  query : Option Str
  filters : Option ProductFilters
  sort : Option SortOption
  limit : Option Nat
  offset : Option Nat
  deriving DecidableEq, Repr

/-- The per-product predicate of `applyFilters`, with JS truthiness kept:
`filters.category`/`filters.brand` are skipped when absent OR the empty
string, `filters.rating` is skipped when absent or `0`, while
`filters.inStock` uses an explicit `!== undefined` test. -/
def passesFilters (filters : ProductFilters) (p : Product) : Bool :=
  if (match filters.category with
      | some c => !c.isEmpty && p.category != c
      | none => false) then false
  else if (match filters.priceRange with
      | some (mn, mx) => p.price.current < mn || p.price.current > mx
      | none => false) then false
  else if (match filters.inStock with
      | some b => p.availability.inStock != b
      | none => false) then false
  else if (match filters.rating with
      | some r => r != 0 && decide (p.rating.average < r)
      | none => false) then false
  else if (match filters.brand with
      | some b => !b.isEmpty && p.brand != b
      | none => false) then false
  else true

/-- Model of `applyFilters`. -/
def applyFilters (products : List Product) (filters : ProductFilters) : List Product :=
  products.filter (passesFilters filters)

/-- Code-point lexicographic order on strings, standing in for
`String.prototype.localeCompare` returning `<= 0`. -/
def lexLe : Str → Str → Bool
  | [], _ => true
  | _ :: _, [] => false
  | a :: as, b :: bs => if a = b then lexLe as bs else decide (a < b)

/-- The comparator of `sortProducts` as a `<= 0` test (`a` may stay before
`b`): each case mirrors the sign of the returned difference. -/
def sortLe (sortOption : SortOption) (a b : Product) : Bool :=
  match sortOption with
  | .priceLow => a.price.current ≤ b.price.current
  | .priceHigh => b.price.current ≤ a.price.current
  | .rating => b.rating.average ≤ a.rating.average
  | .popular => b.rating.count ≤ a.rating.count
  | .newest => lexLe b.id a.id

/-- Insert `a` into `l` after every element that may stay before it. -/
def insSorted (le : α → α → Bool) (a : α) : List α → List α
  | [] => [a]
  | b :: bs => if le b a then b :: insSorted le a bs else a :: b :: bs

/-- Stable sort (JS `Array.prototype.sort` is stable): left-to-right
insertion keeps equal elements in their original relative order. -/
def stableSort (le : α → α → Bool) (l : List α) : List α :=
  l.foldl (fun acc x => insSorted le x acc) []

/-- Model of `sortProducts` as a function on the array contents it is handed
(in the source it sorts that array in place and returns it). -/
def sortProducts (products : List Product) (sortOption : SortOption) : List Product :=
  stableSort (sortLe sortOption) products

/-- The text-match predicate inside `searchProducts`: name, description,
brand, or some feature contains the lower-cased query. -/
def searchMatches (query : Str) (p : Product) : Bool :=
  containsStr (lowerStr p.name) query ||
  containsStr (lowerStr p.description) query ||
  containsStr (lowerStr p.brand) query ||
  p.features.any (fun feature => containsStr (lowerStr feature) query)

/-- Model of `searchProducts` of `ProductService` on the current product
list: text search (skipped for an absent or empty query — `if
(options.query)`), then filters, then sort, then pagination
(`slice(offset, offset+limit)` when both are given, `slice(0, limit)` when
only `limit` is, nothing otherwise). -/
def searchProducts (products : List Product) (options : SearchOptions) : List Product :=
  let results := products
  let results := match options.query with
    | some q => if q.isEmpty then results else results.filter (searchMatches (lowerStr q))
    | none => results
  let results := match options.filters with
    | some f => applyFilters results f
    | none => results
  let results := match options.sort with
    | some so => sortProducts results so
    | none => results
  match options.offset, options.limit with
  | some off, some lim => (results.drop off).take lim
  | none, some lim => results.take lim
  | _, none => results

/-- The `searchProducts` pipeline up to (and excluding) pagination: text
search, then filters, then sort. -/
def queryFilterSort (products : List Product) (q : Option Str)
    (f : Option ProductFilters) (so : Option SortOption) : List Product :=
  let results := products
  let results := match q with
    | some q => if q.isEmpty then results else results.filter (searchMatches (lowerStr q))
    | none => results
  let results := match f with
    | some f => applyFilters results f
    | none => results
  match so with
  | some so => sortProducts results so
  | none => results

/-- The raw parsed catalog JSON as `ProductService` types it. -/
structure RawCatalog where
  catalogMeta : Option Combined.CatalogMeta
  arProducts : Option (List (Str × Product))
  products : Option (List Product)
  deriving DecidableEq, Repr

/-- Mutable fields of the `ProductService` instance (it has no loaded flag). -/
structure PState where
  catalog : Option RawCatalog
  products : List Product
  arProducts : List Product
  deriving DecidableEq, Repr

/-- Constructor state of `ProductService` before its load settles. -/
def initState : PState := { catalog := none, products := [], arProducts := [] }

/-- Fetch/parse outcome for `ProductService.loadCombinedCatalog`. -/
inductive FetchOutcome where
  | netError : FetchOutcome
  | resp (ok : Bool) (body : Option RawCatalog) : FetchOutcome
  deriving DecidableEq, Repr

/-- Model of `loadCombinedCatalog` of `ProductService`: stores the raw
document and builds `[...arProducts, ...products]` with no normalization;
the `catch` resets all three fields.  The HTTP status is never inspected. -/
def loadCombinedCatalog (r : FetchOutcome) (_s : PState) : PState :=
  match r with
  | .netError => { catalog := none, products := [], arProducts := [] }
  | .resp _ none => { catalog := none, products := [], arProducts := [] }
  | .resp _ (some data) =>
      let arr := (data.arProducts.getD []).map (·.2)
      { catalog := some data, products := arr ++ data.products.getD [], arProducts := arr }

/-- Model of `getAllProducts` of `ProductService`: synchronous, returns the
current list with no wait. -/
def getAllProducts (s : PState) : List Product := s.products

/-- Model of `getProductById` of `ProductService`: `catalog?.arProducts?.[id]`
first, then a scan of the merged list (`id.toString() === id` and the
string-typed comparison coincide on the `Str` model). -/
def getProductById (s : PState) (id : Str) : Option Product :=
  match s.catalog with
  | some c =>
      match assocLookup id (c.arProducts.getD []) with
      | some p => some p
      | none => s.products.find? (fun p => p.id = id)
  | none => s.products.find? (fun p => p.id = id)

/-- Model of `searchProducts` as the instance method reads `this.products`. -/
def searchProductsOn (s : PState) (options : SearchOptions) : List Product :=
  searchProducts s.products options

/-!
For the read-only/fresh-result guarantee of `searchProducts` the relevant JS
array operations are made explicit: a heap of arrays, where `[...xs]` and
`filter`/`slice` allocate fresh arrays while `Array.prototype.sort` writes
its receiver in place.  `searchProductsHeap` replays the method body over
this heap.
-/

/-- A store of JS arrays of products; an array reference is its index. -/
structure Heap where
  arrs : List (List Product)
  deriving DecidableEq, Repr

/-- Allocate a fresh array holding `l`; returns the new heap and reference. -/
def allocArr (h : Heap) (l : List Product) : Heap × Nat :=
  (⟨h.arrs ++ [l]⟩, h.arrs.length)

/-- Read the contents of array `i`. -/
def readArr (h : Heap) (i : Nat) : List Product := h.arrs.getD i []

/-- Overwrite the contents of array `i` (in-place mutation). -/
def writeArr (h : Heap) (i : Nat) (l : List Product) : Heap := ⟨h.arrs.set i l⟩

/-- Model of `let results = [...this.products]`: fresh copy of the
receiver's list. -/
def stepCopy (hr : Heap × Nat) : Heap × Nat :=
  allocArr hr.1 (readArr hr.1 hr.2)

/-- The text-search step: `results = results.filter(...)` allocates. -/
def stepQuery (q : Option Str) (hr : Heap × Nat) : Heap × Nat :=
  match q with
  | some q =>
      if q.isEmpty then hr
      else allocArr hr.1 ((readArr hr.1 hr.2).filter (searchMatches (lowerStr q)))
  | none => hr

/-- The filter step: `applyFilters` returns `products.filter(...)`, fresh. -/
def stepFilters (f : Option ProductFilters) (hr : Heap × Nat) : Heap × Nat :=
  match f with
  | some f => allocArr hr.1 (applyFilters (readArr hr.1 hr.2) f)
  | none => hr

/-- The sort step: `sortProducts` calls `.sort` on the array it is handed —
in-place mutation returning the same reference. -/
def stepSort (so : Option SortOption) (hr : Heap × Nat) : Heap × Nat :=
  match so with
  | some so => (writeArr hr.1 hr.2 (sortProducts (readArr hr.1 hr.2) so), hr.2)
  | none => hr

/-- The pagination step: `slice` allocates a fresh array. -/
def stepPage (off lim : Option Nat) (hr : Heap × Nat) : Heap × Nat :=
  match off, lim with
  | some off, some lim => allocArr hr.1 (((readArr hr.1 hr.2).drop off).take lim)
  | none, some lim => allocArr hr.1 ((readArr hr.1 hr.2).take lim)
  | _, none => hr

/-- Model of `searchProducts` replayed over the heap: the receiver's list
lives at `thisRef`; the returned reference is the result array. -/
def searchProductsHeap (h : Heap) (thisRef : Nat) (o : SearchOptions) : Heap × Nat :=
  stepPage o.offset o.limit
    (stepSort o.sort (stepFilters o.filters (stepQuery o.query (stepCopy (h, thisRef)))))

/-- Invariant relating an intermediate heap/reference to the original heap:
the working reference is fresh (past the original heap's arrays), and every
original array is untouched. -/
def HeapInv (h₀ : Heap) (hr : Heap × Nat) : Prop :=
  h₀.arrs.length ≤ hr.2 ∧ hr.2 < hr.1.arrs.length ∧
    ∀ i, i < h₀.arrs.length → readArr hr.1 i = readArr h₀ i

end PS

namespace Demo

open Combined

/-- Raw AR record `"A1"` with a thumbnail on the flagged host, as in the
spec's example scenario. -/
def arA1 : UnifiedProduct :=
  { id := "A1".data, title := some "AR Phone".data, name := none,
    brand := some "Acme".data, category := some "Electronics".data,
    price := some 100, rating := some 4, stock := some 5,
    description := some "an ar phone".data, tags := some ["phone".data],
    images := some ["https://cdn.dummyjson.com/img/a1.png".data],
    thumbnail := some "https://cdn.dummyjson.com/thumb/a1.png".data,
    hasAR := none }

/-- Regular-list record sharing id `"A1"` with the AR record. -/
def regA1 : UnifiedProduct :=
  { id := "A1".data, title := some "Regular Phone".data, name := none,
    brand := some "Acme".data, category := some "Electronics".data,
    price := some 50, rating := some 3, stock := some 2,
    description := some "a regular phone".data, tags := some [],
    images := some ["/assets/images/iphoneX.png".data],
    thumbnail := some "/assets/images/iphoneX.png".data,
    hasAR := none }

/-- A raw catalog document holding `"A1"` in both collections. -/
def demoCatalog : RawCatalog :=
  { catalogMeta := none,
    arProducts := some [("A1".data, arA1)],
    products := some [regA1] }

/-- The service state after the demo catalog loads successfully. -/
def demoState : CState :=
  loadCombinedCatalog (.resp true (some demoCatalog)) initState

/-- A demo `ProductService` product. -/
def psProduct : PS.Product :=
  { id := "WM001".data, name := "Desk Lamp".data, brand := "Acme".data,
    category := "Electronics".data,
    price := { current := 25, original := 30, currency := "USD".data, discount := 5 },
    description := "a bright lamp".data, features := ["dimmable".data],
    availability := { inStock := true, quantity := 3, warehouse := "W1".data },
    rating := { average := 4, count := 10 },
    assets := { images := ["/assets/images/lamp.png".data],
                primaryImage := "/assets/images/lamp.png".data,
                model3D := "/assets/models/lamp.glb".data,
                modelColor := "#ffffff".data, modelScale := 1 } }

/-- A demo raw catalog for `ProductService` with one regular product. -/
def psCatalog : PS.RawCatalog :=
  { catalogMeta := none, arProducts := none, products := some [psProduct] }

/-- A second `ProductService` record sharing id `"WM001"` with `psProduct`. -/
def psRegDup : PS.Product := { psProduct with name := "Other Lamp".data }

/-- A `ProductService` raw catalog holding `"WM001"` in both collections. -/
def psArCatalog : PS.RawCatalog :=
  { catalogMeta := none,
    arProducts := some [("WM001".data, psProduct)],
    products := some [psRegDup] }

/-- The `ProductService` state after `psArCatalog` loads successfully. -/
def psArState : PS.PState :=
  PS.loadCombinedCatalog (.resp true (some psArCatalog)) PS.initState

/-- The demo product with stored category `"Electronics"` (capital E). -/
def elecProduct : PS.Product := psProduct

/-- A filter record asking for category `"electronics"` (lower-case). -/
def elecFilter : PS.ProductFilters :=
  { category := some "electronics".data, priceRange := none, inStock := none,
    rating := none, brand := none }

/-- A product none of whose searchable fields contains a space. -/
def noSpaceProduct : Combined.UnifiedProduct :=
  { id := "P1".data, title := some "ab".data, name := none,
    brand := some "ef".data, category := some "electronics".data,
    price := some 10, rating := some 4, stock := some 1,
    description := some "cd".data, tags := some ["gh".data],
    images := some [], thumbnail := some "/a.png".data, hasAR := none }

/-- Raw catalog holding only `noSpaceProduct` in the regular list. -/
def c6Catalog : Combined.RawCatalog :=
  { catalogMeta := none, arProducts := none, products := some [noSpaceProduct] }

/-- State after loading `c6Catalog`. -/
def c6State : Combined.CState :=
  Combined.loadCombinedCatalog (.resp true (some c6Catalog)) Combined.initState

/-- A `ProductService` record whose image assets point at the flagged host. -/
def psRawImgProduct : PS.Product :=
  { psProduct with
    id := "WM002".data, name := "Raw Cam".data,
    assets := { images := ["https://cdn.dummyjson.com/img/raw.png".data],
                primaryImage := "https://cdn.dummyjson.com/img/raw.png".data,
                model3D := "/assets/models/cam.glb".data,
                modelColor := "#000000".data, modelScale := 1 } }

/-- A `ProductService` raw catalog holding only `psRawImgProduct`. -/
def psRawImgCatalog : PS.RawCatalog :=
  { catalogMeta := none, arProducts := none, products := some [psRawImgProduct] }

/-- A non-2xx response body that still parses as JSON (an error document with
none of the catalog fields). -/
def errorBody : Combined.RawCatalog :=
  { catalogMeta := none, arProducts := none, products := none }

end Demo

/-! ### Sanity checks on the string model -/

example : containsStr "hello dummyjson.com/x".data "dummyjson.com".data = true := by decide
example : containsStr "/assets/images/iphoneX.png".data "dummyjson.com".data = false := by decide
example : lowerStr "Electronics".data = "electronics".data := by decide

/-! ### Normalization lemmas for the combined loader -/

namespace Combined

/-- A defaulted assoc lookup yields the default or one of the stored values. -/
theorem assocLookup_getD_cases (k d : Str) (l : List (Str × Str)) :
    (assocLookup k l).getD d = d ∨ (assocLookup k l).getD d ∈ l.map Prod.snd := by
  induction l with
  | nil => exact Or.inl rfl
  | cons kv rest ih =>
      by_cases h : kv.1 = k
      · right
        simp [assocLookup, h]
      · rcases ih with ih | ih
        · left
          simpa [assocLookup, h] using ih
        · right
          rw [show assocLookup k (kv :: rest) = assocLookup k rest by simp [assocLookup, h]]
          exact List.mem_cons_of_mem _ ih

/-- The loader's per-product fallback image is always drawn from the pool. -/
theorem fallbackFor_mem_pool (p : UnifiedProduct) : fallbackFor p ∈ fallbackPool := by
  unfold fallbackFor fallbackPool
  rcases assocLookup_getD_cases (effectiveCategory p) DEFAULT_IMAGE IMAGE_CATEGORY_FALLBACKS
    with h | h
  · rw [h]; exact List.mem_cons_self _ _
  · exact List.mem_cons_of_mem _ h

/-- No path in the fallback pool mentions the flagged host marker. -/
theorem fallbackPool_no_marker : ∀ s ∈ fallbackPool, containsStr s markerStr = false := by
  decide

/-- The loader's per-product fallback image never mentions the marker. -/
theorem fallbackFor_no_marker (p : UnifiedProduct) :
    containsStr (fallbackFor p) markerStr = false :=
  fallbackPool_no_marker _ (fallbackFor_mem_pool p)

/-- A rewritten image entry never mentions the marker (the fallback used by
the loader is marker-free by `fallbackFor_no_marker`). -/
theorem rewriteImage_no_marker (fb img : Str) (hfb : containsStr fb markerStr = false) :
    containsStr (rewriteImage fb img) markerStr = false := by
  unfold rewriteImage
  split
  · exact hfb
  · next h => simpa using h

/-- A rewritten image entry is the original or the fallback. -/
theorem rewriteImage_cases (fb img : Str) :
    rewriteImage fb img = img ∨ rewriteImage fb img = fb := by
  unfold rewriteImage
  split
  · exact Or.inr rfl
  · exact Or.inl rfl

/-- Images of a normalized product: always present, each entry marker-free
and either an original entry or a pool fallback. -/
theorem normalizeProduct_images_spec (b : Bool) (r : UnifiedProduct) :
    ∃ l, (normalizeProduct b r).images = some l ∧
      ∀ img ∈ l, containsStr img markerStr = false ∧
        (img ∈ r.images.getD [] ∨ img ∈ fallbackPool) := by
  refine ⟨(r.images.getD []).map (rewriteImage (fallbackFor r)), rfl, ?_⟩
  intro img hmem
  rcases List.mem_map.mp hmem with ⟨img₀, hmem₀, rfl⟩
  refine ⟨rewriteImage_no_marker _ _ (fallbackFor_no_marker r), ?_⟩
  rcases rewriteImage_cases (fallbackFor r) img₀ with h | h
  · exact Or.inl (by rw [h]; exact hmem₀)
  · exact Or.inr (by rw [h]; exact fallbackFor_mem_pool r)

/-- Thumbnail of a normalized product: always present, marker-free, and
either the original raw thumbnail or a pool fallback. -/
theorem normalizeProduct_thumbnail_spec (b : Bool) (r : UnifiedProduct) :
    ∃ t, (normalizeProduct b r).thumbnail = some t ∧
      containsStr t markerStr = false ∧
      (r.thumbnail = some t ∨ t ∈ fallbackPool) := by
  unfold normalizeProduct
  cases ht : r.thumbnail with
  | none =>
      exact ⟨DEFAULT_IMAGE, by simp [ht], by decide,
        Or.inr (List.mem_cons_self _ _)⟩
  | some t0 =>
      by_cases hm : containsStr t0 markerStr = true
      · exact ⟨fallbackFor r, by simp [ht, hm], fallbackFor_no_marker r,
          Or.inr (fallbackFor_mem_pool r)⟩
      · by_cases he : t0.isEmpty
        · refine ⟨DEFAULT_IMAGE, ?_, by decide, Or.inr (List.mem_cons_self _ _)⟩
          simp [ht, hm, jsOrStr, he]
        · refine ⟨t0, ?_, by simpa using hm, Or.inl rfl⟩
          simp [ht, hm, jsOrStr, he]

/-- Characterization of the by-category TypeError: the filter callback
throws exactly when some merged record lacks a category. -/
theorem getProductsByCategory_none_iff (s : CState) (cat : Str) :
    getProductsByCategory s cat = none ↔ ∃ p ∈ s.products, p.category = none := by
  unfold getProductsByCategory
  cases hall : s.products.all (fun p => p.category.isSome) with
  | true =>
      rw [if_pos rfl]
      constructor
      · intro hcontra
        exact absurd hcontra (by simp)
      · rintro ⟨p, hp, hnone⟩
        have hs := List.all_eq_true.mp hall p hp
        rw [hnone] at hs
        exact absurd hs (by simp)
  | false =>
      rw [if_neg (by simp)]
      rw [List.all_eq_false] at hall
      rcases hall with ⟨p, hp, hns⟩
      exact ⟨fun _ => ⟨p, hp, by simpa [Option.not_isSome_iff_eq_none] using hns⟩,
        fun _ => rfl⟩

/-- Characterization of the get-categories TypeError: the unguarded read of
`.categories` throws exactly when a stored document lacks its `catalog`
block. -/
theorem getCategories_none_iff (s : CState) :
    getCategories s = none ↔ ∃ c, s.catalog = some c ∧ c.catalogMeta = none := by
  unfold getCategories
  cases hc : s.catalog with
  | none => simp
  | some c =>
      cases hm : c.catalogMeta with
      | none => simp [hm]
      | some m => simp [hm]

end Combined

/-! ### C1 -/

/-- C1: in both services, if an id is present in the AR-keyed collection of
the stored raw catalog, `getProductById` returns that AR-sourced record (the
regular-list scan is never reached). -/
theorem getProductById_ar_precedence (s : Combined.CState) (c : Combined.RawCatalog)
    (id : Str) (p : Combined.UnifiedProduct)
    (s' : PS.PState) (c' : PS.RawCatalog) (id' : Str) (p' : PS.Product)
    (hc : s.catalog = some c)
    (hp : assocLookup id (c.arProducts.getD []) = some p)
    (hc' : s'.catalog = some c')
    (hp' : assocLookup id' (c'.arProducts.getD []) = some p') :
    Combined.getProductById s id = some p ∧ PS.getProductById s' id' = some p' := by
  constructor
  · simp only [Combined.getProductById, hc, hp]
  · simp only [PS.getProductById, hc', hp']

/-- Witness for C1: in the demo states the looked-up ids are present in the
AR-keyed collections and get-by-id returns the AR record in both services. -/
theorem getProductById_ar_precedence_witness :
    Demo.demoState.catalog = some Demo.demoCatalog ∧
    assocLookup "A1".data (Demo.demoCatalog.arProducts.getD []) = some Demo.arA1 ∧
    Demo.psArState.catalog = some Demo.psArCatalog ∧
    assocLookup "WM001".data (Demo.psArCatalog.arProducts.getD []) = some Demo.psProduct ∧
    (Combined.getProductById Demo.demoState "A1".data = some Demo.arA1 ∧
      PS.getProductById Demo.psArState "WM001".data = some Demo.psProduct) :=
  ⟨rfl, by decide, rfl, by decide,
   getProductById_ar_precedence Demo.demoState Demo.demoCatalog "A1".data Demo.arA1
     Demo.psArState Demo.psArCatalog "WM001".data Demo.psProduct
     rfl (by decide) rfl (by decide)⟩

/-! ### C2 -/

/-- C2 (code divergence): after a successful load, `getProductById` returns
the RAW AR record — its thumbnail still points at the flagged host — even
though the very same load rewrote that product's thumbnail to the electronics
fallback path in `this.arProducts`.  The early return reads
`this.catalog.arProducts` instead of the normalized collection. -/
theorem getProductById_returns_raw_flagged_thumbnail :
    Combined.getProductById Demo.demoState "A1".data = some Demo.arA1 ∧
    Demo.arA1.thumbnail = some "https://cdn.dummyjson.com/thumb/a1.png".data ∧
    containsStr "https://cdn.dummyjson.com/thumb/a1.png".data Combined.markerStr = true ∧
    Demo.demoState.arProducts = [Combined.normalizeProduct true Demo.arA1] ∧
    (Combined.normalizeProduct true Demo.arA1).thumbnail =
      some "/assets/images/iphoneX.png".data := by
  refine ⟨by decide, rfl, by decide, rfl, by decide⟩

/-! ### C3 -/

/-- Counterexample to C3: `ProductService.loadCombinedCatalog` performs no
image rewriting — a record whose image assets point at the flagged host is
stored untouched, so after load `getAllProducts` returns it with the marker
still present. -/
theorem ps_load_keeps_flagged_images_cex :
    PS.getAllProducts
        (PS.loadCombinedCatalog (.resp true (some Demo.psRawImgCatalog)) PS.initState)
      = [Demo.psRawImgProduct] ∧
    Demo.psRawImgProduct.assets.images = ["https://cdn.dummyjson.com/img/raw.png".data] ∧
    containsStr "https://cdn.dummyjson.com/img/raw.png".data Combined.markerStr = true :=
  ⟨rfl, rfl, by decide⟩

/-- C3 as amended: in `CombinedProductService`, every product in the merged
collection after a successful load is a normalization of some raw record
from one of the two source collections; its images and thumbnail are
present, none mentions the flagged-host marker `'dummyjson.com'`, and each
is either carried over from the raw record or is one of the
category-fallback paths.  (`ProductService` performs no such rewriting — see
the counterexample.) -/
theorem loaded_products_no_flagged_host (ok : Bool) (data : Combined.RawCatalog)
    (s₀ : Combined.CState) (p : Combined.UnifiedProduct)
    (hp : p ∈ (Combined.loadCombinedCatalog (.resp ok (some data)) s₀).products) :
    ∃ b r, (r ∈ (data.arProducts.getD []).map Prod.snd ∨ r ∈ data.products.getD []) ∧
      p = Combined.normalizeProduct b r ∧
      (∃ l, p.images = some l ∧ ∀ img ∈ l,
        containsStr img Combined.markerStr = false ∧
          (img ∈ r.images.getD [] ∨ img ∈ Combined.fallbackPool)) ∧
      (∃ t, p.thumbnail = some t ∧ containsStr t Combined.markerStr = false ∧
        (r.thumbnail = some t ∨ t ∈ Combined.fallbackPool)) := by
  simp only [Combined.loadCombinedCatalog, List.mem_append] at hp
  rcases hp with hp | hp
  · rcases List.mem_map.mp hp with ⟨kv, hkv, rfl⟩
    exact ⟨true, kv.2, Or.inl (List.mem_map_of_mem Prod.snd hkv), rfl,
      Combined.normalizeProduct_images_spec true kv.2,
      Combined.normalizeProduct_thumbnail_spec true kv.2⟩
  · rcases List.mem_map.mp hp with ⟨r, hr, rfl⟩
    exact ⟨false, r, Or.inr hr, rfl,
      Combined.normalizeProduct_images_spec false r,
      Combined.normalizeProduct_thumbnail_spec false r⟩

/-- Witness for C3: the demo AR record `"A1"` (raw images and thumbnail on the
flagged host) appears in the loaded merged collection in normalized form, and
the theorem applies to it. -/
theorem loaded_products_no_flagged_host_witness :
    Combined.normalizeProduct true Demo.arA1 ∈
      (Combined.loadCombinedCatalog (.resp true (some Demo.demoCatalog))
        Combined.initState).products ∧
    (∃ b r, (r ∈ (Demo.demoCatalog.arProducts.getD []).map Prod.snd ∨
        r ∈ Demo.demoCatalog.products.getD []) ∧
      Combined.normalizeProduct true Demo.arA1 = Combined.normalizeProduct b r ∧
      (∃ l, (Combined.normalizeProduct true Demo.arA1).images = some l ∧ ∀ img ∈ l,
        containsStr img Combined.markerStr = false ∧
          (img ∈ r.images.getD [] ∨ img ∈ Combined.fallbackPool)) ∧
      (∃ t, (Combined.normalizeProduct true Demo.arA1).thumbnail = some t ∧
        containsStr t Combined.markerStr = false ∧
        (r.thumbnail = some t ∨ t ∈ Combined.fallbackPool))) :=
  ⟨by decide,
   loaded_products_no_flagged_host true Demo.demoCatalog Combined.initState
     (Combined.normalizeProduct true Demo.arA1) (by decide)⟩

/-! ### C4 -/

/-- Counterexample to C4: `ProductService.getAllProducts` does not wait for
the load — called on the constructor state (before the fetch settles) it
returns the initial empty list, a view that differs from the data the load
then installs. -/
theorem psGetAllProducts_no_wait_cex :
    PS.getAllProducts PS.initState = [] ∧
    PS.getAllProducts (PS.loadCombinedCatalog (.resp true (some Demo.psCatalog)) PS.initState)
      = [Demo.psProduct] ∧
    ([] : List PS.Product) ≠ [Demo.psProduct] :=
  ⟨rfl, rfl, by simp⟩

/-- C4 as amended: `CombinedProductService` accessors wait for the load —
before it settles they stay pending (outer `none`), and in any state reached
by a settling load (success or failure) `isLoaded` holds and every accessor
call completes with its body's outcome: get-all, get-by-id and search always
return a value, while get-by-category throws a TypeError when some merged
record lacks a category and get-categories throws when the stored document
lacks its metadata block (both modelled as an inner `none`);
`ProductService` accessors do not wait and synchronously return the current
(initially empty) collection. -/
theorem accessors_await_load_settlement (r : Combined.FetchOutcome)
    (s₀ : Combined.CState) (id q cat : Str) :
    (Combined.loadCombinedCatalog r s₀).isLoaded = true ∧
    Combined.getAllProductsAwait (Combined.loadCombinedCatalog r s₀)
      = some (Combined.getAllProducts (Combined.loadCombinedCatalog r s₀)) ∧
    Combined.getProductByIdAwait (Combined.loadCombinedCatalog r s₀) id
      = some (Combined.getProductById (Combined.loadCombinedCatalog r s₀) id) ∧
    Combined.getProductsByCategoryAwait (Combined.loadCombinedCatalog r s₀) cat
      = some (Combined.getProductsByCategory (Combined.loadCombinedCatalog r s₀) cat) ∧
    Combined.searchProductsAwait (Combined.loadCombinedCatalog r s₀) q
      = some (Combined.searchProducts (Combined.loadCombinedCatalog r s₀) q) ∧
    Combined.getCategoriesAwait (Combined.loadCombinedCatalog r s₀)
      = some (Combined.getCategories (Combined.loadCombinedCatalog r s₀)) ∧
    (Combined.getProductsByCategory (Combined.loadCombinedCatalog r s₀) cat = none ↔
      ∃ p ∈ (Combined.loadCombinedCatalog r s₀).products, p.category = none) ∧
    (Combined.getCategories (Combined.loadCombinedCatalog r s₀) = none ↔
      ∃ c, (Combined.loadCombinedCatalog r s₀).catalog = some c ∧ c.catalogMeta = none) ∧
    Combined.getAllProductsAwait Combined.initState = none ∧
    (∀ s : PS.PState, PS.getAllProducts s = s.products) := by
  have hl : (Combined.loadCombinedCatalog r s₀).isLoaded = true := by
    rcases r with _ | ⟨ok, body⟩
    · rfl
    · cases body <;> rfl
  refine ⟨hl, ?_, ?_, ?_, ?_, ?_,
    Combined.getProductsByCategory_none_iff _ cat,
    Combined.getCategories_none_iff _, ?_, fun _ => rfl⟩ <;>
    simp [Combined.getAllProductsAwait, Combined.getProductByIdAwait,
      Combined.getProductsByCategoryAwait, Combined.searchProductsAwait,
      Combined.getCategoriesAwait, Combined.waitForLoad, hl, Combined.initState]

/-! ### C5 -/

/-- Counterexample to C5: the stored category `"Electronics"` and the filter
value `"electronics"` are equal case-insensitively, yet `applyFilters`
excludes the product — the comparison `product.category !== filters.category`
is case-sensitive. -/
theorem category_filter_not_case_insensitive_cex :
    lowerStr Demo.elecProduct.category = lowerStr "electronics".data ∧
    PS.applyFilters [Demo.elecProduct] Demo.elecFilter = [] := by
  exact ⟨by decide, by decide⟩

/-- C5 as amended: with a non-empty category filter value, a product passes
the category filter exactly when its stored category equals the filter value
as an exact, case-sensitive string; an empty filter value disables the
filter. -/
theorem category_filter_exact_match (ps : List PS.Product) (c : Str) (p : PS.Product)
    (hc : c ≠ []) :
    p ∈ PS.applyFilters ps
        { category := some c, priceRange := none, inStock := none,
          rating := none, brand := none } ↔
      p ∈ ps ∧ p.category = c := by
  have hce : c.isEmpty = false := by
    cases c with
    | nil => exact absurd rfl hc
    | cons a as => rfl
  simp only [PS.applyFilters, List.mem_filter, PS.passesFilters, hce]
  constructor
  · rintro ⟨hmem, hpass⟩
    refine ⟨hmem, ?_⟩
    by_contra hne
    simp [hne] at hpass
  · rintro ⟨hmem, heq⟩
    simp [heq]
    exact hmem

/-- Witness for C5's amended theorem at the demo product and the exact-case
filter value `"Electronics"`. -/
theorem category_filter_exact_match_witness :
    ("Electronics".data ≠ ([] : Str)) ∧
    (Demo.elecProduct ∈ PS.applyFilters [Demo.elecProduct]
        { category := some "Electronics".data, priceRange := none, inStock := none,
          rating := none, brand := none } ↔
      Demo.elecProduct ∈ [Demo.elecProduct] ∧
        Demo.elecProduct.category = "Electronics".data) :=
  ⟨by decide,
   category_filter_exact_match [Demo.elecProduct] "Electronics".data Demo.elecProduct
     (by decide)⟩

/-! ### C6 -/

/-- Counterexample to C6: the query `" "` is a non-empty string, no searchable
field of the loaded product contains it, yet `CombinedProductService.searchProducts`
returns that product — a whitespace-only query short-circuits through
`!query.trim()` and matches everything. -/
theorem search_whitespace_query_cex :
    (" ".data : Str) ≠ [] ∧
    Combined.searchProducts Demo.c6State " ".data
      = [Combined.normalizeProduct false Demo.noSpaceProduct] ∧
    Combined.searchMatches (lowerStr " ".data)
      (Combined.normalizeProduct false Demo.noSpaceProduct) = false :=
  ⟨by decide, by decide, by decide⟩

/-- C6 as amended: in `ProductService`, a product is returned exactly when the
query is absent/empty or its name, description, brand, or some feature
contains the lower-cased query; in `CombinedProductService`, a product is
returned exactly when the query is empty-after-trim (whitespace-only queries
match everything) or its display name (title falling back to name),
description, brand, or some tag contains the lower-cased query. -/
theorem text_search_membership (ps : List PS.Product) (q : Str) (p : PS.Product)
    (s : Combined.CState) (q' : Str) (p' : Combined.UnifiedProduct) :
    (p ∈ PS.searchProducts ps
        { query := some q, filters := none, sort := none, limit := none, offset := none } ↔
      p ∈ ps ∧ (q = [] ∨ PS.searchMatches (lowerStr q) p = true)) ∧
    (PS.searchProducts ps
        { query := none, filters := none, sort := none, limit := none, offset := none } = ps) ∧
    (p' ∈ Combined.searchProducts s q' ↔
      p' ∈ s.products ∧
        (trimIsEmpty q' = true ∨ Combined.searchMatches (lowerStr q') p' = true)) := by
  refine ⟨?_, rfl, ?_⟩
  · cases q with
    | nil => simp [PS.searchProducts]
    | cons a as =>
        simp [PS.searchProducts, List.mem_filter]
  · cases ht : trimIsEmpty q' with
    | true => simp [Combined.searchProducts, ht]
    | false => simp [Combined.searchProducts, ht, List.mem_filter]

/-! ### C7 -/

/-- C7: with a price-range filter `{min, max}`, `searchProducts` returns
exactly the products whose current price `p` satisfies `min <= p <= max` —
inclusive at both bounds, with plain comparisons and no epsilon. -/
theorem price_range_filter_inclusive (ps : List PS.Product) (mn mx : ℚ) (p : PS.Product) :
    p ∈ PS.searchProducts ps
        { query := none,
          filters := some { category := none, priceRange := some (mn, mx),
                            inStock := none, rating := none, brand := none },
          sort := none, limit := none, offset := none } ↔
      p ∈ ps ∧ mn ≤ p.price.current ∧ p.price.current ≤ mx := by
  simp only [PS.searchProducts, PS.applyFilters, List.mem_filter, PS.passesFilters]
  constructor
  · rintro ⟨hmem, hpass⟩
    refine ⟨hmem, ?_, ?_⟩
    · by_contra hlt
      simp [not_le] at hlt
      simp [hlt] at hpass
    · by_contra hgt
      simp [not_le] at hgt
      simp [hgt, hgt.not_lt] at hpass
  · rintro ⟨hmem, hmn, hmx⟩
    refine ⟨hmem, ?_⟩
    simp [not_lt_of_le hmn, not_lt_of_le hmx]

example :
    Demo.psProduct ∈ PS.searchProducts [Demo.psProduct]
      { query := none,
        filters := some { category := none, priceRange := some (20, 25),
                          inStock := none, rating := none, brand := none },
        sort := none, limit := none, offset := none } := by
  decide

/-! ### C10 -/

/-- C10: when `offset` is given without `limit`, pagination is skipped
entirely — the offset has no effect and the full filtered and sorted
sequence is returned. -/
theorem offset_without_limit_skips_pagination (ps : List PS.Product) (q : Option Str)
    (f : Option PS.ProductFilters) (so : Option PS.SortOption) (off : Nat) :
    PS.searchProducts ps
        { query := q, filters := f, sort := so, limit := none, offset := some off }
      = PS.searchProducts ps
        { query := q, filters := f, sort := so, limit := none, offset := none } ∧
    PS.searchProducts ps
        { query := q, filters := f, sort := so, limit := none, offset := some off }
      = PS.queryFilterSort ps q f so :=
  ⟨rfl, rfl⟩

/-! ### C8 -/

/-- Counterexample to C8: a non-2xx response whose body parses as JSON is NOT
treated as a failure — the loader stores the parsed body as the catalog, so
the metadata is not absent (`catalog ≠ none`), contradicting the claimed
loaded-but-empty state for every load failure. -/
theorem non2xx_load_keeps_metadata_cex :
    (Combined.loadCombinedCatalog (.resp false (some Demo.errorBody))
        Combined.initState).catalog = some Demo.errorBody ∧
    (some Demo.errorBody : Option Combined.RawCatalog) ≠ none :=
  ⟨rfl, by simp⟩

/-- C8 as amended: failures that reject the fetch/parse pipeline — a network
failure, or any response whose body fails to parse as JSON — are caught and
resolve to the loaded-but-empty state (empty collections, absent metadata,
load marked complete) in both services, and no exception escapes; a non-2xx
response is not detected, so when its body parses as JSON it is processed as
a successful load (metadata set to the parsed body), still with load marked
complete. -/
theorem load_failure_fail_open (s : Combined.CState) (s' : PS.PState) (ok : Bool)
    (d : Combined.RawCatalog) :
    Combined.loadCombinedCatalog .netError s
      = { catalog := none, products := [], arProducts := [], isLoaded := true } ∧
    Combined.loadCombinedCatalog (.resp ok none) s
      = { catalog := none, products := [], arProducts := [], isLoaded := true } ∧
    (Combined.loadCombinedCatalog (.resp ok (some d)) s).isLoaded = true ∧
    (Combined.loadCombinedCatalog (.resp ok (some d)) s).catalog = some d ∧
    PS.loadCombinedCatalog .netError s'
      = { catalog := none, products := [], arProducts := [] } ∧
    (∀ ok' : Bool, PS.loadCombinedCatalog (.resp ok' none) s'
      = { catalog := none, products := [], arProducts := [] }) :=
  ⟨rfl, rfl, rfl, rfl, rfl, fun _ => rfl⟩

/-! ### Heap lemmas for C9 -/

namespace PS

theorem readArr_allocArr_lt (h : Heap) (l : List Product) (i : Nat)
    (hi : i < h.arrs.length) : readArr (allocArr h l).1 i = readArr h i := by
  simp [readArr, allocArr, List.getD, List.getElem?_append, hi]

theorem readArr_allocArr_self (h : Heap) (l : List Product) :
    readArr (allocArr h l).1 (allocArr h l).2 = l := by
  simp [readArr, allocArr, List.getD, List.getElem?_concat_length]

theorem readArr_writeArr_ne (h : Heap) (i j : Nat) (l : List Product) (hij : i ≠ j) :
    readArr (writeArr h j l) i = readArr h i := by
  simp [readArr, writeArr, List.getD, List.getElem?_set_ne (Ne.symm hij)]

theorem readArr_writeArr_self (h : Heap) (j : Nat) (l : List Product)
    (hj : j < h.arrs.length) : readArr (writeArr h j l) j = l := by
  simp [readArr, writeArr, List.getD, List.getElem?_set_self, hj]

/-- Allocating preserves the invariant and the fresh array becomes current. -/
theorem heapInv_allocArr (h₀ : Heap) (hr : Heap × Nat) (l : List Product)
    (hinv : HeapInv h₀ hr) : HeapInv h₀ (allocArr hr.1 l) := by
  obtain ⟨h1, h2, h3⟩ := hinv
  refine ⟨le_trans (le_of_lt (lt_of_le_of_lt h1 h2)) (le_refl _), ?_, ?_⟩
  · simp [allocArr]
  · intro i hi
    rw [readArr_allocArr_lt hr.1 l i (lt_of_lt_of_le hi (le_of_lt (lt_of_le_of_lt h1 h2)))]
    exact h3 i hi

/-- Writing through the current (fresh) reference preserves the invariant. -/
theorem heapInv_writeArr (h₀ : Heap) (hr : Heap × Nat) (l : List Product)
    (hinv : HeapInv h₀ hr) : HeapInv h₀ (writeArr hr.1 hr.2 l, hr.2) := by
  obtain ⟨h1, h2, h3⟩ := hinv
  refine ⟨h1, ?_, ?_⟩
  · simpa [writeArr] using h2
  · intro i hi
    rw [readArr_writeArr_ne hr.1 i hr.2 l (Nat.ne_of_lt (lt_of_lt_of_le hi h1))]
    exact h3 i hi

theorem heapInv_stepQuery (h₀ : Heap) (hr : Heap × Nat) (q : Option Str)
    (hinv : HeapInv h₀ hr) : HeapInv h₀ (stepQuery q hr) := by
  cases q with
  | none => exact hinv
  | some q =>
      by_cases hq : q.isEmpty
      · simpa [stepQuery, hq] using hinv
      · simpa [stepQuery, hq] using heapInv_allocArr h₀ hr _ hinv

theorem heapInv_stepFilters (h₀ : Heap) (hr : Heap × Nat) (f : Option ProductFilters)
    (hinv : HeapInv h₀ hr) : HeapInv h₀ (stepFilters f hr) := by
  cases f with
  | none => exact hinv
  | some f => exact heapInv_allocArr h₀ hr _ hinv

theorem heapInv_stepSort (h₀ : Heap) (hr : Heap × Nat) (so : Option SortOption)
    (hinv : HeapInv h₀ hr) : HeapInv h₀ (stepSort so hr) := by
  cases so with
  | none => exact hinv
  | some so => exact heapInv_writeArr h₀ hr _ hinv

theorem heapInv_stepPage (h₀ : Heap) (hr : Heap × Nat) (off lim : Option Nat)
    (hinv : HeapInv h₀ hr) : HeapInv h₀ (stepPage off lim hr) := by
  cases off with
  | none =>
      cases lim with
      | none => exact hinv
      | some lim => exact heapInv_allocArr h₀ hr _ hinv
  | some off =>
      cases lim with
      | none => exact hinv
      | some lim => exact heapInv_allocArr h₀ hr _ hinv

/-- The copy step establishes the invariant from any receiver. -/
theorem heapInv_stepCopy (h : Heap) (thisRef : Nat) :
    HeapInv h (stepCopy (h, thisRef)) := by
  refine ⟨le_refl _, ?_, ?_⟩
  · simp [stepCopy, allocArr]
  · intro i hi
    exact readArr_allocArr_lt h _ i hi

/-- The full replay keeps the invariant. -/
theorem heapInv_searchProductsHeap (h : Heap) (thisRef : Nat) (o : SearchOptions) :
    HeapInv h (searchProductsHeap h thisRef o) :=
  heapInv_stepPage h _ o.offset o.limit
    (heapInv_stepSort h _ o.sort
      (heapInv_stepFilters h _ o.filters
        (heapInv_stepQuery h _ o.query (heapInv_stepCopy h thisRef))))

/-- Current-array contents after the text-search step. -/
theorem stepQuery_spec (q : Option Str) (hr : Heap × Nat)
    (hv : hr.2 < hr.1.arrs.length) :
    (stepQuery q hr).2 < (stepQuery q hr).1.arrs.length ∧
    readArr (stepQuery q hr).1 (stepQuery q hr).2
      = (match q with
         | some qq => if qq.isEmpty then readArr hr.1 hr.2
             else (readArr hr.1 hr.2).filter (searchMatches (lowerStr qq))
         | none => readArr hr.1 hr.2) := by
  cases q with
  | none => exact ⟨hv, rfl⟩
  | some qq =>
      by_cases hq : qq.isEmpty
      · simpa [stepQuery, hq] using hv
      · refine ⟨?_, ?_⟩
        · simp [stepQuery, hq, allocArr]
        · simp only [stepQuery, hq, if_false, Bool.false_eq_true]
          rw [readArr_allocArr_self]

/-- Current-array contents after the attribute-filter step. -/
theorem stepFilters_spec (f : Option ProductFilters) (hr : Heap × Nat)
    (hv : hr.2 < hr.1.arrs.length) :
    (stepFilters f hr).2 < (stepFilters f hr).1.arrs.length ∧
    readArr (stepFilters f hr).1 (stepFilters f hr).2
      = (match f with
         | some ff => applyFilters (readArr hr.1 hr.2) ff
         | none => readArr hr.1 hr.2) := by
  cases f with
  | none => exact ⟨hv, rfl⟩
  | some ff =>
      refine ⟨by simp [stepFilters, allocArr], ?_⟩
      simp only [stepFilters]
      rw [readArr_allocArr_self]

/-- Current-array contents after the in-place sort step. -/
theorem stepSort_spec (so : Option SortOption) (hr : Heap × Nat)
    (hv : hr.2 < hr.1.arrs.length) :
    (stepSort so hr).2 < (stepSort so hr).1.arrs.length ∧
    readArr (stepSort so hr).1 (stepSort so hr).2
      = (match so with
         | some s => sortProducts (readArr hr.1 hr.2) s
         | none => readArr hr.1 hr.2) := by
  cases so with
  | none => exact ⟨hv, rfl⟩
  | some s =>
      refine ⟨by simpa [stepSort, writeArr] using hv, ?_⟩
      simp only [stepSort]
      exact readArr_writeArr_self hr.1 hr.2 _ hv

/-- Current-array contents after the pagination step. -/
theorem stepPage_spec (off lim : Option Nat) (hr : Heap × Nat)
    (hv : hr.2 < hr.1.arrs.length) :
    (stepPage off lim hr).2 < (stepPage off lim hr).1.arrs.length ∧
    readArr (stepPage off lim hr).1 (stepPage off lim hr).2
      = (match off, lim with
         | some o, some l => ((readArr hr.1 hr.2).drop o).take l
         | none, some l => (readArr hr.1 hr.2).take l
         | _, none => readArr hr.1 hr.2) := by
  cases off with
  | none =>
      cases lim with
      | none => exact ⟨hv, rfl⟩
      | some l =>
          refine ⟨by simp [stepPage, allocArr], ?_⟩
          simp only [stepPage]
          rw [readArr_allocArr_self]
  | some o =>
      cases lim with
      | none => exact ⟨hv, rfl⟩
      | some l =>
          refine ⟨by simp [stepPage, allocArr], ?_⟩
          simp only [stepPage]
          rw [readArr_allocArr_self]

/-- The heap replay computes exactly the pure `searchProducts` of the
receiver's contents: reading the returned reference gives the method's
result. -/
theorem searchProductsHeap_models (h : Heap) (thisRef : Nat) (o : SearchOptions) :
    readArr (searchProductsHeap h thisRef o).1 (searchProductsHeap h thisRef o).2
      = searchProducts (readArr h thisRef) o := by
  have hc2 : (stepCopy (h, thisRef)).2 < (stepCopy (h, thisRef)).1.arrs.length := by
    simp [stepCopy, allocArr]
  have hcv : readArr (stepCopy (h, thisRef)).1 (stepCopy (h, thisRef)).2
      = readArr h thisRef := readArr_allocArr_self _ _
  obtain ⟨hq2, hqv⟩ := stepQuery_spec o.query _ hc2
  obtain ⟨hf2, hfv⟩ := stepFilters_spec o.filters _ hq2
  obtain ⟨hs2, hsv⟩ := stepSort_spec o.sort _ hf2
  obtain ⟨hp2, hpv⟩ := stepPage_spec o.offset o.limit _ hs2
  unfold searchProductsHeap
  rw [hpv, hsv, hfv, hqv, hcv]
  rfl

end PS

/-! ### C9 -/

/-- C9: `searchProducts` never mutates the underlying collection — in the
heap replay, the receiver's array (and every other pre-existing array) reads
back unchanged — and the returned array is a fresh allocation, never an alias
of the receiver. -/
theorem searchProducts_readonly_fresh (h : PS.Heap) (thisRef : Nat)
    (o : PS.SearchOptions) (hlt : thisRef < h.arrs.length) :
    PS.readArr (PS.searchProductsHeap h thisRef o).1 thisRef = PS.readArr h thisRef ∧
    (PS.searchProductsHeap h thisRef o).2 ≠ thisRef ∧
    (∀ i, i < h.arrs.length →
      PS.readArr (PS.searchProductsHeap h thisRef o).1 i = PS.readArr h i) := by
  obtain ⟨h1, h2, h3⟩ := PS.heapInv_searchProductsHeap h thisRef o
  exact ⟨h3 thisRef hlt, Nat.ne_of_gt (lt_of_lt_of_le hlt h1), h3⟩

/-- Witness for C9 on a one-array heap with a sort and pagination
exercised. -/
theorem searchProducts_readonly_fresh_witness :
    (0 : Nat) < (PS.Heap.mk [[Demo.psProduct]]).arrs.length ∧
    (PS.readArr (PS.searchProductsHeap (PS.Heap.mk [[Demo.psProduct]]) 0
        { query := none, filters := none, sort := some .priceLow,
          limit := some 1, offset := some 0 }).1 0
      = PS.readArr (PS.Heap.mk [[Demo.psProduct]]) 0 ∧
    (PS.searchProductsHeap (PS.Heap.mk [[Demo.psProduct]]) 0
        { query := none, filters := none, sort := some .priceLow,
          limit := some 1, offset := some 0 }).2 ≠ 0 ∧
    (∀ i, i < (PS.Heap.mk [[Demo.psProduct]]).arrs.length →
      PS.readArr (PS.searchProductsHeap (PS.Heap.mk [[Demo.psProduct]]) 0
          { query := none, filters := none, sort := some .priceLow,
            limit := some 1, offset := some 0 }).1 i
        = PS.readArr (PS.Heap.mk [[Demo.psProduct]]) i)) := by
  constructor
  · decide
  · have := searchProducts_readonly_fresh (PS.Heap.mk [[Demo.psProduct]]) 0
      { query := none, filters := none, sort := some .priceLow,
        limit := some 1, offset := some 0 } (by decide)
    obtain ⟨a, b, c⟩ := this
    refine ⟨a, b, ?_⟩
    intro i hi
    have hi0 : i = 0 := by
      simp at hi
      omega
    subst hi0
    exact c 0 (by decide)
